import Mathlib

/-!
Verification of the Baccarat rules/settlement engine (`src/baccarat.rs`).

The Rust source is embedded shallowly:
* `u8`/`i32` fields become `ℕ`/`ℤ`; the one place where the source performs
  arithmetic in `u8` before widening (`BonusBets::total_bet`) is modelled
  with an explicit `% 256` (release-build wrap-around; debug builds panic
  on that overflow);
* the `f32` computations in the payout functions (`bet_amount as f32 * 1.95`
  then `as i32`) are modelled exactly: an IEEE-754 binary32 value is a
  mantissa/exponent pair, multiplication and conversion round to nearest,
  ties to even, and the final cast truncates toward zero;
* `Vec::pop`-based card sources are modelled as lists dealt from the head;
* fallible operations return `Except`/`Option`; the `Result` returning
  methods of `BettingRound` are modelled as state-passing functions that
  return the (possibly unchanged) record next to the `Except` value.
-/

namespace TerminalCasino

/-- A playing card: `suit` (0..3) and `rank` (1..13), from `struct Card`. -/
structure Card where
  suit : ℕ
  rank : ℕ
deriving DecidableEq

/-- Source `Card::baccarat_value`: ranks 1..9 count as themselves, tens and face
cards count as zero. -/
def Card.baccarat_value (c : Card) : ℕ :=
  if 1 ≤ c.rank ∧ c.rank ≤ 9 then c.rank else 0

/-- Source `GameState::calculate_hand_score`: sum of the baccarat values, mod 10. -/
def calculate_hand_score (cards : List Card) : ℕ :=
  (cards.map Card.baccarat_value).sum % 10

/-- Source `struct GameState`: winner is 0 none, 1 player, 2 banker, 3 tie;
`round_complete` is 0 ongoing, 1 complete. -/
structure GameState where
  player_score : ℕ
  banker_score : ℕ
  round_complete : ℕ
  winner : ℕ
deriving DecidableEq

/-- Source `enum GameMode`. -/
inductive GameMode where
  | Classic
  | NoCommission
  | Speed
  | EzBaccarat
deriving DecidableEq

/-! ## The shoe (`struct Shoe`)

The constructor shuffles the `52 * num_decks` cards; the shuffled order is a
parameter of the model (`shuffled`).  `Vec::pop` deals from the end of the
vector; the model keeps the cards in dealing order and deals from the head,
which is the same sequence of lengths and cards. -/

structure Shoe where
  cards : List Card
  num_decks : ℕ
  cut_card_position : ℕ
  cards_dealt : ℕ

/-- Source `Shoe::new`: `cut_card_position = len - max(len / 10, 15)` where
`len = 52 * num_decks` is the length of the freshly built (then shuffled)
card vector. -/
def Shoe.new (num_decks : ℕ) (shuffled : List Card) : Shoe :=
  { cards := shuffled
    num_decks := num_decks
    cut_card_position := shuffled.length - max (shuffled.length / 10) 15
    cards_dealt := 0 }

/-- Source `Shoe::deal`: `None` when empty, otherwise one card off the shoe and
`cards_dealt` incremented. -/
def Shoe.deal (s : Shoe) : Option (Card × Shoe) :=
  match s.cards with
  | [] => none
  | c :: rest => some (c, { s with cards := rest, cards_dealt := s.cards_dealt + 1 })

/-- Source `Shoe::needs_reshuffle`: `cards.len() <= 52 * num_decks - cut_card_position`. -/
def Shoe.needs_reshuffle (s : Shoe) : Bool :=
  decide (s.cards.length ≤ 52 * s.num_decks - s.cut_card_position)

/-- Deal `n` cards from the shoe (a no-op once the shoe is empty). -/
def Shoe.dealN : ℕ → Shoe → Shoe
  | 0, s => s
  | n + 1, s =>
    match s.deal with
    | none => s
    | some (_, s2) => Shoe.dealN n s2

/-- The cards of one 52-card deck in construction order (`for suit in 0..4`,
`for rank in 1..=13`), used as a concrete shuffle for witnesses. -/
def suit_run (s : ℕ) : List Card :=
  (List.range 13).map fun r => ⟨s, r + 1⟩

/-- One full deck in construction order, as `Deck::new` / `Shoe::new` build it. -/
def deck_cards : List Card :=
  suit_run 0 ++ suit_run 1 ++ suit_run 2 ++ suit_run 3

/-! ## The round itself (`BaccaratGame::play_round`)

The card source is modelled as the list of cards it will produce, in order.
`play_round cards` returns `some (player_hand, banker_hand, state, rest)`
when every `deal()` the round performs yields a card, `none` when a deal
hits an exhausted source (the `unwrap()` panic in the Rust code). -/

/-- Source `BaccaratGame::banker_draw_logic`'s decision table. -/
def banker_draw_logic (banker_score : ℕ) (player_third_value : Option ℕ) : Bool :=
  match banker_score with
  | 0 | 1 | 2 => true
  | 3 => decide (player_third_value ≠ some 8)
  | 4 =>
    match player_third_value with
    | some v => decide (2 ≤ v ∧ v ≤ 7)
    | none => false
  | 5 =>
    match player_third_value with
    | some v => decide (4 ≤ v ∧ v ≤ 7)
    | none => false
  | 6 =>
    match player_third_value with
    | some v => decide (v = 6 ∨ v = 7)
    | none => false
  | _ => false

/-- Source `BaccaratGame::determine_winner`, as a function of the two final scores. -/
def determine_winner (player_score banker_score : ℕ) : GameState :=
  { player_score := player_score
    banker_score := banker_score
    round_complete := 1
    winner :=
      if banker_score < player_score then 1
      else if player_score < banker_score then 2
      else 3 }

/-- The banker's phase of `play_round`: draw (or stand) per
`banker_draw_logic`, then `determine_winner`. -/
def banker_phase (player banker : List Card) (ptv : Option ℕ) (rest : List Card) :
    Option (List Card × List Card × GameState × List Card) :=
  if banker_draw_logic (calculate_hand_score banker) ptv then
    match rest with
    | [] => none
    | c :: rest2 =>
      some (player, banker ++ [c],
        determine_winner (calculate_hand_score player) (calculate_hand_score (banker ++ [c])),
        rest2)
  else
    some (player, banker,
      determine_winner (calculate_hand_score player) (calculate_hand_score banker),
      rest)

/-- Source `BaccaratGame::play_round`: initial deal player, banker, player, banker;
natural stop at 8+; player draws at ≤ 5; then the banker table. -/
def play_round (cards : List Card) :
    Option (List Card × List Card × GameState × List Card) :=
  match cards with
  | p1 :: b1 :: p2 :: b2 :: rest =>
    let player0 := [p1, p2]
    let banker0 := [b1, b2]
    let ps := calculate_hand_score player0
    let bs := calculate_hand_score banker0
    if 8 ≤ ps ∨ 8 ≤ bs then
      some (player0, banker0, determine_winner ps bs, rest)
    else if ps ≤ 5 then
      match rest with
      | [] => none
      | c5 :: rest2 => banker_phase (player0 ++ [c5]) banker0 (some c5.baccarat_value) rest2
    else
      banker_phase player0 banker0 none rest
  | _ => none

/-! ## IEEE-754 binary32 arithmetic for the payout code

The only float operations the source performs are `i32 as f32`, one `f32`
multiplication by a positive literal, and `f32 as i32`.  On the magnitudes
involved every value is a normal positive binary32 number, so a value is
represented exactly as `m * 2 ^ e` with a mantissa `m < 2 ^ 24`; rounding is
round-to-nearest, ties-to-even, and the final cast truncates toward zero. -/

structure F32 where
  m : ℕ
  e : ℤ

/-- How many low bits must be dropped for the mantissa to fit in 24 bits
(fuel-driven so that it reduces in the kernel; 64 bits of fuel covers every
product of two 24-bit mantissas and every `i32`). -/
def F32.shiftFor : ℕ → ℕ → ℕ
  | 0, _ => 0
  | fuel + 1, m => if m < 2 ^ 24 then 0 else F32.shiftFor fuel (m / 2) + 1

/-- Drop the low `s` bits of `m`, rounding to nearest, ties to even. -/
def F32.rne (m s : ℕ) : ℕ :=
  let q := m / 2 ^ s
  let r := m % 2 ^ s
  if 2 * r < 2 ^ s then q
  else if 2 ^ s < 2 * r then q + 1
  else if q % 2 = 0 then q else q + 1

/-- Round the exact value `m * 2 ^ e` to binary32 precision. -/
def F32.round24 (m : ℕ) (e : ℤ) : F32 :=
  ⟨F32.rne m (F32.shiftFor 64 m), e + F32.shiftFor 64 m⟩

/-- Conversion `n as f32` for a non-negative integer. -/
def F32.ofNat (n : ℕ) : F32 := F32.round24 n 0

/-- binary32 multiplication: exact product, then one rounding. -/
def F32.mul (a b : F32) : F32 := F32.round24 (a.m * b.m) (a.e + b.e)

/-- Conversion `x as i32` for a non-negative binary32 value: truncation toward zero. -/
def F32.truncNat (a : F32) : ℕ :=
  if 0 ≤ a.e then a.m * 2 ^ a.e.toNat else a.m / 2 ^ (-a.e).toNat

/-- The binary32 value of the literal `1.95f32`: the representable number
nearest to `39 / 20`, namely `16357786 * 2 ^ (-23)`. -/
def lit195 : F32 := ⟨16357786, -23⟩

/-- The binary32 value of the literal `1.5f32` (exactly representable):
`12582912 * 2 ^ (-23)`. -/
def lit15 : F32 := ⟨12582912, -23⟩

/-- Computation `(n as f32 * 1.95) as i32` for a non-negative `n`. -/
def times195 (n : ℕ) : ℕ := F32.truncNat (F32.mul (F32.ofNat n) lit195)

/-- Computation `(n as f32 * 1.5) as i32` for a non-negative `n`. -/
def times15 (n : ℕ) : ℕ := F32.truncNat (F32.mul (F32.ofNat n) lit15)

/-- Computation `(amount as f32 * lit) as i32` on `i32`: rounding and truncation are
symmetric under negation, so the negative case goes through the
non-negative one. -/
def f32_scale (lit : F32) (amount : ℤ) : ℤ :=
  if 0 ≤ amount then (F32.truncNat (F32.mul (F32.ofNat amount.toNat) lit) : ℤ)
  else -(F32.truncNat (F32.mul (F32.ofNat (-amount).toNat) lit) : ℤ)

/-! ## Bonus bets and the game record -/

/-- Source `struct BonusBets`: seven `u8` stakes. -/
structure BonusBets where
  player_pair : ℕ
  banker_pair : ℕ
  either_pair : ℕ
  perfect_pair : ℕ
  player_dragon : ℕ
  banker_dragon : ℕ
  lucky_6 : ℕ
deriving DecidableEq

/-- Source `BonusBets::new`. -/
def BonusBets.new : BonusBets := ⟨0, 0, 0, 0, 0, 0, 0⟩

/-- Source `BonusBets::total_bet`: the source adds the seven `u8` stakes in `u8`
and only then casts to `i32`, so the sum wraps modulo 256 (release build;
a debug build panics on the overflow). -/
def BonusBets.total_bet (b : BonusBets) : ℤ :=
  (((b.player_pair + b.banker_pair + b.either_pair + b.perfect_pair +
      b.player_dragon + b.banker_dragon + b.lucky_6) % 256 : ℕ) : ℤ)

/-- Source `struct BaccaratGame`, minus the card source: the settlement-facing
fields.  (The card source only feeds `play_round`, which the model gives the
card list directly.) -/
structure Game where
  player_hand : List Card
  banker_hand : List Card
  state : GameState
  mode : GameMode
  bonus_bets : BonusBets

/-- Source `BaccaratGame::is_player_pair`: at least two cards and the first two
share a rank. -/
def Game.is_player_pair (g : Game) : Bool :=
  match g.player_hand with
  | a :: b :: _ => a.rank == b.rank
  | _ => false

/-- Source `BaccaratGame::is_banker_pair`. -/
def Game.is_banker_pair (g : Game) : Bool :=
  match g.banker_hand with
  | a :: b :: _ => a.rank == b.rank
  | _ => false

/-- Source `BaccaratGame::is_either_pair`. -/
def Game.is_either_pair (g : Game) : Bool :=
  g.is_player_pair || g.is_banker_pair

/-- Source `BaccaratGame::is_perfect_pair`: either side's first two cards share
rank and suit. -/
def Game.is_perfect_pair (g : Game) : Bool :=
  (match g.player_hand with
   | a :: b :: _ => a.rank == b.rank && a.suit == b.suit
   | _ => false) ||
  (match g.banker_hand with
   | a :: b :: _ => a.rank == b.rank && a.suit == b.suit
   | _ => false)

/-- Source `BaccaratGame::victory_margin`. -/
def Game.victory_margin (g : Game) : ℕ :=
  if g.state.winner = 0 ∨ g.state.winner = 3 then 0
  else
    max g.state.player_score g.state.banker_score -
      min g.state.player_score g.state.banker_score

/-- Source `BaccaratGame::is_dragon_7`. -/
def Game.is_dragon_7 (g : Game) : Bool :=
  g.state.winner == 2 && g.state.banker_score == 7 && g.banker_hand.length == 3

/-- Source `BaccaratGame::is_panda_8`. -/
def Game.is_panda_8 (g : Game) : Bool :=
  g.state.winner == 1 && g.state.player_score == 8 && g.player_hand.length == 3

/-- Source `BaccaratGame::classic_payout`. -/
def Game.classic_payout (g : Game) (bet_type : String) (bet_amount : ℤ) : ℤ :=
  if bet_type = "player" ∧ g.state.winner = 1 then bet_amount * 2
  else if bet_type = "banker" ∧ g.state.winner = 2 then f32_scale lit195 bet_amount
  else if bet_type = "tie" ∧ g.state.winner = 3 then bet_amount * 9
  else 0

/-- Source `BaccaratGame::no_commission_payout`. -/
def Game.no_commission_payout (g : Game) (bet_type : String) (bet_amount : ℤ) : ℤ :=
  if bet_type = "player" ∧ g.state.winner = 1 then bet_amount * 2
  else if bet_type = "banker" ∧ g.state.winner = 2 then
    if g.state.banker_score = 6 then f32_scale lit15 bet_amount else bet_amount * 2
  else if bet_type = "tie" ∧ g.state.winner = 3 then bet_amount * 9
  else 0

/-- Source `BaccaratGame::speed_payout`. -/
def Game.speed_payout (g : Game) (bet_type : String) (bet_amount : ℤ) : ℤ :=
  if bet_type = "player" ∧ g.state.winner = 1 then bet_amount * 2
  else if bet_type = "banker" ∧ g.state.winner = 2 then bet_amount * 2
  else if bet_type = "tie" ∧ g.state.winner = 3 then bet_amount * 8
  else 0

/-- The 7-push test of `BaccaratGame::ez_baccarat_payout`: three banker
cards, banker score 7, every banker card of baccarat value 0 (the source
also accepts value ≥ 10, which `baccarat_value` never produces). -/
def Game.ez_push (g : Game) : Prop :=
  g.banker_hand.length = 3 ∧ g.state.banker_score = 7 ∧
    g.banker_hand.all (fun c => c.baccarat_value == 0 || decide (10 ≤ c.baccarat_value))

instance (g : Game) : Decidable g.ez_push := by
  unfold Game.ez_push; infer_instance

/-- Source `BaccaratGame::ez_baccarat_payout`. -/
def Game.ez_baccarat_payout (g : Game) (bet_type : String) (bet_amount : ℤ) : ℤ :=
  if bet_type = "player" ∧ g.state.winner = 1 then bet_amount * 2
  else if bet_type = "banker" ∧ g.state.winner = 2 then
    if g.ez_push then bet_amount else bet_amount * 2
  else if bet_type = "tie" ∧ g.state.winner = 3 then bet_amount * 9
  else if bet_type = "dragon7" ∧ g.state.winner = 2 ∧ g.is_dragon_7 then bet_amount * 40
  else if bet_type = "panda8" ∧ g.state.winner = 1 ∧ g.is_panda_8 then bet_amount * 25
  else 0

/-- Source `BaccaratGame::calculate_main_bet_payout`: dispatch on the mode. -/
def Game.calculate_main_bet_payout (g : Game) (bet_type : String) (bet_amount : ℤ) : ℤ :=
  match g.mode with
  | .Classic => g.classic_payout bet_type bet_amount
  | .NoCommission => g.no_commission_payout bet_type bet_amount
  | .Speed => g.speed_payout bet_type bet_amount
  | .EzBaccarat => g.ez_baccarat_payout bet_type bet_amount

/-- The dragon side bets' margin table in `BonusBets::calculate_payouts`. -/
def dragon_ratio : ℕ → ℤ
  | 9 => 30
  | 8 => 10
  | 7 => 6
  | 6 => 4
  | 5 => 2
  | 4 => 1
  | _ => 0

/-- Source `BonusBets::calculate_payouts`: each placed (stake > 0) bonus whose
condition holds contributes stake times its multiplier.  (The source's
`payout_ratio > 0` guard inside the dragon branches only skips adding a
zero.) -/
def BonusBets.calculate_payouts (b : BonusBets) (g : Game) : ℤ :=
  (if 0 < b.player_pair ∧ g.is_player_pair then (b.player_pair : ℤ) * 11 else 0) +
  (if 0 < b.banker_pair ∧ g.is_banker_pair then (b.banker_pair : ℤ) * 11 else 0) +
  (if 0 < b.either_pair ∧ g.is_either_pair then (b.either_pair : ℤ) * 5 else 0) +
  (if 0 < b.perfect_pair ∧ g.is_perfect_pair then (b.perfect_pair : ℤ) * 25 else 0) +
  (if 0 < b.player_dragon ∧ g.state.winner = 1 then
    (b.player_dragon : ℤ) * dragon_ratio g.victory_margin else 0) +
  (if 0 < b.banker_dragon ∧ g.state.winner = 2 then
    (b.banker_dragon : ℤ) * dragon_ratio g.victory_margin else 0) +
  (if 0 < b.lucky_6 ∧ g.state.winner = 2 ∧ g.state.banker_score = 6 then
    (b.lucky_6 : ℤ) * (if g.banker_hand.length = 3 then 20 else 12) else 0)

/-- Source `BaccaratGame::total_payout`: main payout plus bonus payout. -/
def Game.total_payout (g : Game) (main_bet_type : String) (main_bet_amount : ℤ) : ℤ :=
  g.calculate_main_bet_payout main_bet_type main_bet_amount +
    g.bonus_bets.calculate_payouts g

/-! ## Betting round and statistics -/

/-- Source `struct RoundStatistics`; the `HashMap<String, u32>` of bonus hits is a
total function with default 0 (an absent key reads as 0). -/
structure RoundStatistics where
  hands_played : ℕ
  amount_wagered : ℤ
  amount_won : ℤ
  bonus_hits : String → ℕ

/-- Source `RoundStatistics::new`. -/
def RoundStatistics.new : RoundStatistics := ⟨0, 0, 0, fun _ => 0⟩

/-- Source `RoundStatistics::record_bonus_hit`: bump the counter for one key. -/
def RoundStatistics.record_bonus_hit (st : RoundStatistics) (k : String) : RoundStatistics :=
  { st with bonus_hits := fun s => if s = k then st.bonus_hits s + 1 else st.bonus_hits s }

/-- Source `struct BettingRound`. -/
structure BettingRound where
  main_bet_type : String
  main_bet_amount : ℤ
  bonus_bets : BonusBets
  balance : ℤ
  round_stats : RoundStatistics

/-- Source `BettingRound::place_main_bet`: the three checks in source order, each
an early return before any mutation. -/
def BettingRound.place_main_bet (br : BettingRound) (bet_type : String) (amount : ℤ) :
    Except String Unit × BettingRound :=
  if br.balance < amount then (.error "Insufficient balance", br)
  else if amount ≤ 0 then (.error "Bet amount must be positive", br)
  else if ¬(bet_type = "player" ∨ bet_type = "banker" ∨ bet_type = "tie") then
    (.error "Invalid bet type", br)
  else (.ok (), { br with main_bet_type := bet_type, main_bet_amount := amount })

/-- Source `BettingRound::place_bonus_bet`: the balance check adds the main stake,
`total_bet()` over the bets as currently placed (so the old stake of the
kind being replaced is counted too), and the new stake. -/
def BettingRound.place_bonus_bet (br : BettingRound) (bet_type : String) (amount : ℕ) :
    Except String Unit × BettingRound :=
  let total := br.main_bet_amount + br.bonus_bets.total_bet + (amount : ℤ)
  if br.balance < total then (.error "Insufficient balance for bonus bet", br)
  else if bet_type = "player_pair" then
    (.ok (), { br with bonus_bets := { br.bonus_bets with player_pair := amount } })
  else if bet_type = "banker_pair" then
    (.ok (), { br with bonus_bets := { br.bonus_bets with banker_pair := amount } })
  else if bet_type = "either_pair" then
    (.ok (), { br with bonus_bets := { br.bonus_bets with either_pair := amount } })
  else if bet_type = "perfect_pair" then
    (.ok (), { br with bonus_bets := { br.bonus_bets with perfect_pair := amount } })
  else if bet_type = "player_dragon" then
    (.ok (), { br with bonus_bets := { br.bonus_bets with player_dragon := amount } })
  else if bet_type = "banker_dragon" then
    (.ok (), { br with bonus_bets := { br.bonus_bets with banker_dragon := amount } })
  else if bet_type = "lucky_6" then
    (.ok (), { br with bonus_bets := { br.bonus_bets with lucky_6 := amount } })
  else (.error "Invalid bonus bet type", br)

/-- Source `BettingRound::settle_round`: one balance update, the three running
totals, and hit recording for the two pair bonuses only. -/
def BettingRound.settle_round (br : BettingRound) (g : Game) : ℤ × BettingRound :=
  let total_bet := br.main_bet_amount + br.bonus_bets.total_bet
  let payout := g.total_payout br.main_bet_type br.main_bet_amount
  let stats1 : RoundStatistics :=
    { br.round_stats with
        hands_played := br.round_stats.hands_played + 1
        amount_wagered := br.round_stats.amount_wagered + total_bet
        amount_won := br.round_stats.amount_won + payout }
  let stats2 := if g.is_player_pair ∧ 0 < br.bonus_bets.player_pair then
    stats1.record_bonus_hit "player_pair" else stats1
  let stats3 := if g.is_banker_pair ∧ 0 < br.bonus_bets.banker_pair then
    stats2.record_bonus_hit "banker_pair" else stats2
  (payout, { br with balance := br.balance - total_bet + payout, round_stats := stats3 })

/-! ## Spec-side table and concrete fixtures -/

/-- The claim's banker draw table, transcribed from the spec's wording (for
the refinement comparison with `banker_draw_logic`): 0-2 always draw; 3
draws iff the player stood or the player's third-card value is not 8; 4
draws iff that value is in 2..7; 5 iff in 4..7; 6 iff in {6, 7}; 7+ never. -/
def spec_banker_draws (banker_score : ℕ) (ptv : Option ℕ) : Prop :=
  banker_score ≤ 2 ∨
  (banker_score = 3 ∧ ptv ≠ some 8) ∨
  (banker_score = 4 ∧ ∃ v ∈ Finset.Icc 2 7, ptv = some v) ∨
  (banker_score = 5 ∧ ∃ v ∈ Finset.Icc 4 7, ptv = some v) ∨
  (banker_score = 6 ∧ (ptv = some 6 ∨ ptv = some 7))

instance (banker_score : ℕ) (ptv : Option ℕ) : Decidable (spec_banker_draws banker_score ptv) := by
  unfold spec_banker_draws
  infer_instance

/-- A completed Classic round the banker won with score 6 (so the `lucky_6`
condition holds); no pairs. -/
def g_classic_banker : Game :=
  { player_hand := [⟨0, 13⟩, ⟨1, 12⟩]
    banker_hand := [⟨2, 1⟩, ⟨3, 5⟩]
    state := { player_score := 0, banker_score := 6, round_complete := 1, winner := 2 }
    mode := GameMode.Classic
    bonus_bets := BonusBets.new }

/-- A completed EzBaccarat round the banker won with two cards (so not a
7-push). -/
def g_ez_banker : Game :=
  { player_hand := [⟨0, 13⟩, ⟨1, 12⟩]
    banker_hand := [⟨2, 1⟩, ⟨3, 5⟩]
    state := { player_score := 0, banker_score := 6, round_complete := 1, winner := 2 }
    mode := GameMode.EzBaccarat
    bonus_bets := BonusBets.new }

/-- A completed Classic round the player won 6 to 5; no pairs. -/
def g_player_win : Game :=
  { player_hand := [⟨0, 6⟩, ⟨1, 13⟩]
    banker_hand := [⟨2, 5⟩, ⟨3, 13⟩]
    state := { player_score := 6, banker_score := 5, round_complete := 1, winner := 1 }
    mode := GameMode.Classic
    bonus_bets := BonusBets.new }

/-- A betting round holding a `lucky_6` stake of 3. -/
def br_lucky : BettingRound :=
  { main_bet_type := "player"
    main_bet_amount := 10
    bonus_bets := { BonusBets.new with lucky_6 := 3 }
    balance := 100
    round_stats := RoundStatistics.new }

/-- A betting round with all seven bonus stakes at 40: their `u8` sum, 280,
wraps to 24. -/
def br_overflow : BettingRound :=
  { main_bet_type := "player"
    main_bet_amount := 10
    bonus_bets := ⟨40, 40, 40, 40, 40, 40, 40⟩
    balance := 1000
    round_stats := RoundStatistics.new }

/-- A betting round whose whole balance, 10, is already on `player_pair`. -/
def br_replace : BettingRound :=
  { main_bet_type := ""
    main_bet_amount := 0
    bonus_bets := { BonusBets.new with player_pair := 10 }
    balance := 10
    round_stats := RoundStatistics.new }

/-- A fresh betting round with balance 50 (`BettingRound::new(50)`). -/
def br_small : BettingRound :=
  { main_bet_type := ""
    main_bet_amount := 0
    bonus_bets := BonusBets.new
    balance := 50
    round_stats := RoundStatistics.new }

/-- Floor of `n * 1.95` computed exactly in the rationals: `n * 39 / 20`. -/
def floor195 (n : ℕ) : ℕ := n * 39 / 20

/-! ## Theorems -/

lemma dealN_fields (n : ℕ) : ∀ s : Shoe, (Shoe.dealN n s).cards = s.cards.drop n ∧
    (Shoe.dealN n s).num_decks = s.num_decks ∧
    (Shoe.dealN n s).cut_card_position = s.cut_card_position := by
  induction n with
  | zero => intro s; simp [Shoe.dealN]
  | succ k ih =>
    intro s
    unfold Shoe.dealN Shoe.deal
    cases h : s.cards with
    | nil => simp [h]
    | cons c rest =>
      simpa [h] using ih { s with cards := rest, cards_dealt := s.cards_dealt + 1 }

/-- C2: the banker third-card decision matches the spec's table on every
combination of a banker score 0..9 with a player third-card value that is
absent or 0..9, and "player stood" triggers a draw in row 3 only: rows 4,
5, 6 stand on a stood player. -/
theorem claim_C2_banker_table :
    (∀ (bs : Fin 10) (ptv : Option (Fin 10)),
      banker_draw_logic bs.val (ptv.map Fin.val) = true ↔
        spec_banker_draws bs.val (ptv.map Fin.val)) ∧
    banker_draw_logic 3 none = true ∧ banker_draw_logic 4 none = false ∧
    banker_draw_logic 5 none = false ∧ banker_draw_logic 6 none = false := by
  refine ⟨?_, by decide, by decide, by decide, by decide⟩
  decide

/-- C4: in the EzBaccarat variant a banker win pays 1x the stake exactly
when the 7-push condition (three banker cards, banker score 7, every
banker card of baccarat value 0) holds, and 2x the stake on every other
banker win. -/
theorem claim_C4_ez_push (g : Game) (amt : ℤ) (hmode : g.mode = GameMode.EzBaccarat)
    (hw : g.state.winner = 2) :
    (g.ez_push → g.calculate_main_bet_payout "banker" amt = amt) ∧
    (¬g.ez_push → g.calculate_main_bet_payout "banker" amt = amt * 2) := by
  unfold Game.calculate_main_bet_payout
  rw [hmode]
  unfold Game.ez_baccarat_payout
  constructor
  · intro hp
    simp [hw, hp]
  · intro hp
    simp [hw, hp]

/-- C4 witness: a two-card banker win in EzBaccarat pays 2x. -/
theorem claim_C4_witness :
    g_ez_banker.calculate_main_bet_payout "banker" 7 = 7 * 2 :=
  (claim_C4_ez_push g_ez_banker 7 rfl rfl).2 (by decide)

/-- C6: `place_main_bet` with a non-positive amount, an amount over the
balance, or a selection outside player/banker/tie returns an error and
leaves the betting round (balance, bet fields, bonus bets) unchanged. -/
theorem claim_C6_main_bet_validation (br : BettingRound) (t : String) (amt : ℤ)
    (h : amt ≤ 0 ∨ br.balance < amt ∨ ¬(t = "player" ∨ t = "banker" ∨ t = "tie")) :
    (∃ e, (br.place_main_bet t amt).1 = Except.error e) ∧
      (br.place_main_bet t amt).2 = br := by
  unfold BettingRound.place_main_bet
  split_ifs with h1 h2 h3
  · exact ⟨⟨_, rfl⟩, rfl⟩
  · exact ⟨⟨_, rfl⟩, rfl⟩
  · rcases h with h | h | h
    · exact absurd h h2
    · exact absurd h h1
    · exact absurd h3 h
  · exact ⟨⟨_, rfl⟩, rfl⟩

/-- C6 witness: betting 100 against a balance of 50 fails and changes
nothing. -/
theorem claim_C6_witness :
    (∃ e, (br_small.place_main_bet "player" 100).1 = Except.error e) ∧
      (br_small.place_main_bet "player" 100).2 = br_small :=
  claim_C6_main_bet_validation br_small "player" 100 (Or.inr (Or.inl (by decide)))

/-- C7: for a one-deck shoe the cut-card offset is
`52 - max(52 / 10, 15) = 37`, and `needs_reshuffle()` holds exactly once
at least 37 cards have been dealt. -/
theorem claim_C7_cut_card (shuffled : List Card) (d : ℕ)
    (hlen : shuffled.length = 52) (hd : d ≤ 52) :
    (Shoe.new 1 shuffled).cut_card_position = 52 - max (52 / 10) 15 ∧
    ((Shoe.dealN d (Shoe.new 1 shuffled)).needs_reshuffle = true ↔ 37 ≤ d) := by
  have h := dealN_fields d (Shoe.new 1 shuffled)
  constructor
  · simp [Shoe.new, hlen]
  · unfold Shoe.needs_reshuffle
    rw [h.1, h.2.1, h.2.2]
    simp only [Shoe.new, hlen, List.length_drop, decide_eq_true_eq]
    omega

/-- C7 witness: after dealing 37 cards of a concrete one-deck shoe the
reshuffle flag is up. -/
theorem claim_C7_witness :
    (Shoe.new 1 deck_cards).cut_card_position = 52 - max (52 / 10) 15 ∧
    ((Shoe.dealN 37 (Shoe.new 1 deck_cards)).needs_reshuffle = true ↔ 37 ≤ 37) :=
  claim_C7_cut_card deck_cards 37 (by decide) (by decide)

/-- C10: the balance check of `place_bonus_bet` compares the balance with
main stake + `total_bet()` over the bets as currently placed + the new
stake, so the old stake of the kind being replaced is counted too; in
particular replacing the `player_pair` stake 10 by the same 10 with
balance 10 fails although the total staked after replacement, 10, would
not exceed the balance. -/
theorem claim_C10_replace_check :
    (∀ (br : BettingRound) (t : String) (amt : ℕ),
      (br.place_bonus_bet t amt).1 = Except.error "Insufficient balance for bonus bet" ↔
        br.balance < br.main_bet_amount + br.bonus_bets.total_bet + (amt : ℤ)) ∧
    (10 ≤ br_replace.bonus_bets.player_pair ∧
      (br_replace.place_bonus_bet "player_pair" 10).1 =
        Except.error "Insufficient balance for bonus bet" ∧
      br_replace.main_bet_amount +
          BonusBets.total_bet { br_replace.bonus_bets with player_pair := 10 } ≤
        br_replace.balance) := by
  constructor
  · intro br t amt
    unfold BettingRound.place_bonus_bet
    by_cases hb : br.balance < br.main_bet_amount + br.bonus_bets.total_bet + (amt : ℤ)
    · simp [hb]
    · simp only [if_neg hb]
      split_ifs <;> simp [hb]
  · exact ⟨by decide, by rfl, by decide⟩

/-- C1 counterexample: a round the banker won with score 6 against a
positive `lucky_6` stake records no `lucky_6` hit-count entry. -/
theorem claim_C1_cex :
    g_classic_banker.state.winner = 2 ∧ g_classic_banker.state.banker_score = 6 ∧
    0 < br_lucky.bonus_bets.lucky_6 ∧
    (br_lucky.settle_round g_classic_banker).2.round_stats.bonus_hits "lucky_6" = 0 := by
  refine ⟨rfl, rfl, by decide, by decide⟩

/-- C1 (amended): `settle_round` records hit-count entries for the
`player_pair` and `banker_pair` bonuses exactly when their condition held
and their stake was positive, and never touches the counters of the other
five bonus kinds. -/
theorem claim_C1_bonus_hits (br : BettingRound) (g : Game) :
    ((br.settle_round g).2.round_stats.bonus_hits "player_pair" =
        br.round_stats.bonus_hits "player_pair" +
          (if g.is_player_pair ∧ 0 < br.bonus_bets.player_pair then 1 else 0)) ∧
    ((br.settle_round g).2.round_stats.bonus_hits "banker_pair" =
        br.round_stats.bonus_hits "banker_pair" +
          (if g.is_banker_pair ∧ 0 < br.bonus_bets.banker_pair then 1 else 0)) ∧
    (∀ k : String, k ≠ "player_pair" → k ≠ "banker_pair" →
      (br.settle_round g).2.round_stats.bonus_hits k = br.round_stats.bonus_hits k) := by
  refine ⟨?_, ?_, ?_⟩
  · simp only [BettingRound.settle_round, RoundStatistics.record_bonus_hit]
    split_ifs <;> simp +decide
  · simp only [BettingRound.settle_round, RoundStatistics.record_bonus_hit]
    split_ifs <;> simp +decide
  · intro k hk1 hk2
    simp only [BettingRound.settle_round, RoundStatistics.record_bonus_hit]
    split_ifs <;> simp [hk1, hk2]

/-- C8: a completed round dealt 4, 5, or 6 cards in total, and exactly 4
when either initial two-card hand scored 8 or more. -/
theorem claim_C8_card_count (cards ph bh : List Card) (st : GameState)
    (rest : List Card) (h : play_round cards = some (ph, bh, st, rest)) :
    (ph.length + bh.length = 4 ∨ ph.length + bh.length = 5 ∨ ph.length + bh.length = 6) ∧
    ((8 ≤ calculate_hand_score (ph.take 2) ∨ 8 ≤ calculate_hand_score (bh.take 2)) →
      ph.length + bh.length = 4) := by
  rcases cards with _ | ⟨p1, _ | ⟨b1, _ | ⟨p2, _ | ⟨b2, rest0⟩⟩⟩⟩
  · simp [play_round] at h
  · simp [play_round] at h
  · simp [play_round] at h
  · simp [play_round] at h
  · simp only [play_round] at h
    split at h
    · rename_i hnat
      simp only [Option.some.injEq, Prod.mk.injEq] at h
      obtain ⟨hph, hbh, -, -⟩ := h
      subst hph; subst hbh
      exact ⟨by simp, fun _ => by simp⟩
    · rename_i hnat
      split at h
      · rcases rest0 with _ | ⟨c5, rest1⟩
        · simp at h
        · simp only [banker_phase] at h
          split at h
          · rcases rest1 with _ | ⟨c6, rest2⟩
            · simp at h
            · simp only [Option.some.injEq, Prod.mk.injEq] at h
              obtain ⟨hph, hbh, -, -⟩ := h
              subst hph; subst hbh
              refine ⟨by simp, fun hcontra => ?_⟩
              exact absurd (by simpa using hcontra) hnat
          · simp only [Option.some.injEq, Prod.mk.injEq] at h
            obtain ⟨hph, hbh, -, -⟩ := h
            subst hph; subst hbh
            refine ⟨by simp, fun hcontra => ?_⟩
            exact absurd (by simpa using hcontra) hnat
      · simp only [banker_phase] at h
        split at h
        · rcases rest0 with _ | ⟨c6, rest2⟩
          · simp at h
          · simp only [Option.some.injEq, Prod.mk.injEq] at h
            obtain ⟨hph, hbh, -, -⟩ := h
            subst hph; subst hbh
            refine ⟨by simp, fun hcontra => ?_⟩
            exact absurd (by simpa using hcontra) hnat
        · simp only [Option.some.injEq, Prod.mk.injEq] at h
          obtain ⟨hph, hbh, -, -⟩ := h
          subst hph; subst hbh
          exact ⟨by simp, fun _ => by simp⟩

/-- C8 witness: a natural 9 against 5 ends after the four initial cards. -/
theorem claim_C8_witness :
    ([(⟨0, 4⟩ : Card), ⟨0, 5⟩].length + [(⟨1, 2⟩ : Card), ⟨1, 3⟩].length = 4 ∨
      [(⟨0, 4⟩ : Card), ⟨0, 5⟩].length + [(⟨1, 2⟩ : Card), ⟨1, 3⟩].length = 5 ∨
      [(⟨0, 4⟩ : Card), ⟨0, 5⟩].length + [(⟨1, 2⟩ : Card), ⟨1, 3⟩].length = 6) ∧
    ((8 ≤ calculate_hand_score ([(⟨0, 4⟩ : Card), ⟨0, 5⟩].take 2) ∨
        8 ≤ calculate_hand_score ([(⟨1, 2⟩ : Card), ⟨1, 3⟩].take 2)) →
      [(⟨0, 4⟩ : Card), ⟨0, 5⟩].length + [(⟨1, 2⟩ : Card), ⟨1, 3⟩].length = 4) :=
  claim_C8_card_count [⟨0, 4⟩, ⟨1, 2⟩, ⟨0, 5⟩, ⟨1, 3⟩] [⟨0, 4⟩, ⟨0, 5⟩]
    [⟨1, 2⟩, ⟨1, 3⟩] (determine_winner 9 5) [] (by decide)

/-- C9: with at least 6 cards in the source, every `deal()` of the round
succeeds, so the round completes (the exhaustion branch is unreachable). -/
theorem claim_C9_no_exhaustion (cards : List Card) (h : 6 ≤ cards.length) :
    (play_round cards).isSome = true := by
  rcases cards with _ | ⟨p1, _ | ⟨b1, _ | ⟨p2, _ | ⟨b2, _ | ⟨c5, _ | ⟨c6, rest⟩⟩⟩⟩⟩⟩
  · simp at h
  · simp at h
  · simp at h
  · simp at h
  · simp at h
  · simp at h
  · simp only [play_round, banker_phase]
    repeat' split
    all_goals simp

/-- C9 witness: a full 52-card deck is more than enough for one round. -/
theorem claim_C9_witness : (play_round deck_cards).isSome = true :=
  claim_C9_no_exhaustion deck_cards (by decide)

lemma shiftFor_succ (fuel m : ℕ) :
    F32.shiftFor (fuel + 1) m = if m < 2 ^ 24 then 0 else F32.shiftFor fuel (m / 2) + 1 := rfl

lemma shiftFor_le (fuel k m : ℕ) (hm : m < 2 ^ 24 * 2 ^ k) (hk : k ≤ fuel) :
    F32.shiftFor fuel m ≤ k := by
  induction fuel generalizing k m with
  | zero => simp [F32.shiftFor]
  | succ f ih =>
    rw [shiftFor_succ]
    split
    · exact Nat.zero_le k
    · rename_i hge
      push_neg at hge
      have hk1 : 1 ≤ k := by
        by_contra hk0
        have hz : k = 0 := by omega
        subst hz
        simp only [pow_zero, mul_one] at hm
        omega
      have heq : 2 ^ 24 * 2 ^ (k - 1) * 2 = 2 ^ 24 * 2 ^ k := by
        rw [mul_assoc, ← pow_succ]
        congr 2
        omega
      have hm2 : m / 2 < 2 ^ 24 * 2 ^ (k - 1) := by
        rw [Nat.div_lt_iff_lt_mul (by norm_num : (0:ℕ) < 2), heq]
        exact hm
      have := ih (k - 1) (m / 2) hm2 (by omega)
      omega

lemma rne_ge_div (m s : ℕ) : m / 2 ^ s ≤ F32.rne m s := by
  simp only [F32.rne]
  repeat' split
  all_goals first
  | exact le_rfl
  | exact Nat.le_succ _

lemma rne_mul_le (m s : ℕ) : 2 * (F32.rne m s * 2 ^ s) ≤ 2 * m + 2 ^ s := by
  have hdm : m / 2 ^ s * 2 ^ s + m % 2 ^ s = m := by
    rw [mul_comm]
    exact Nat.div_add_mod m (2 ^ s)
  simp only [F32.rne, ite_mul, add_mul, one_mul]
  generalize hX : m / 2 ^ s * 2 ^ s = X at hdm ⊢
  generalize hR : m % 2 ^ s = R at hdm ⊢
  generalize hP : (2:ℕ) ^ s = P at hdm ⊢
  repeat' split
  all_goals omega

lemma ofNat_small (n : ℕ) (hn : n < 2 ^ 24) : F32.ofNat n = ⟨n, 0⟩ := by
  unfold F32.ofNat F32.round24
  have hstep : F32.shiftFor 64 n = if n < 2 ^ 24 then 0 else F32.shiftFor 63 (n / 2) + 1 := rfl
  rw [hstep, if_pos hn]
  simp [F32.rne]
  intro h
  exact absurd (Nat.mod_one n) h

/-- For every stake below 393216 the `f32` computation
`(stake as f32) * 1.95f32` truncated toward zero agrees with the exact
rational floor of `stake * 1.95`.  (The bound is nearly sharp: the first
disagreement is at stake 393221.) -/
lemma times195_below (s : ℕ) (hs : s < 393216) : times195 s = floor195 s := by
  have h24 : s < 2 ^ 24 := by
    have h : (2:ℕ) ^ 24 = 16777216 := by norm_num
    omega
  unfold times195 floor195
  rw [ofNat_small s h24]
  simp only [F32.mul, lit195, F32.round24, F32.truncNat]
  set m : ℕ := s * 16357786 with hm
  set sh : ℕ := F32.shiftFor 64 m with hsh
  have hmlt : m < 2 ^ 24 * 2 ^ 19 := by
    have h1 : m ≤ 393215 * 16357786 := by
      rw [hm]
      exact Nat.mul_le_mul_right 16357786 (by omega)
    have h2 : (2:ℕ) ^ 24 * 2 ^ 19 = 8796093022208 := by norm_num
    have h3 : (393215:ℕ) * 16357786 = 6432126821990 := by norm_num
    omega
  have hshle : sh ≤ 19 := shiftFor_le 64 19 m hmlt (by norm_num)
  have hPle : 2 ^ sh ≤ 524288 := by
    calc 2 ^ sh ≤ 2 ^ 19 := Nat.pow_le_pow_right (by norm_num) hshle
    _ = 524288 := by norm_num
  set q : ℕ := s * 39 / 20 with hq
  set r : ℕ := s * 39 % 20 with hr
  have hkey : 20 * m = (20 * q + r) * 8388608 + 8 * s := by
    rw [hq, hr, Nat.div_add_mod (s * 39) 20, hm]
    ring
  have hrlt : r < 20 := by
    rw [hr]
    exact Nat.mod_lt _ (by norm_num)
  have hqm : q * 8388608 ≤ m := by omega
  have hlow : q * 8388608 ≤ F32.rne m sh * 2 ^ sh := by
    have hsplit : q * 8388608 = q * 2 ^ (23 - sh) * 2 ^ sh := by
      rw [mul_assoc, ← pow_add]
      have h23 : 23 - sh + sh = 23 := by omega
      rw [h23]
      norm_num
    have hdiv : q * 2 ^ (23 - sh) ≤ m / 2 ^ sh := by
      rw [Nat.le_div_iff_mul_le (pow_pos (by norm_num : (0:ℕ) < 2) sh)]
      calc q * 2 ^ (23 - sh) * 2 ^ sh = q * 8388608 := hsplit.symm
        _ ≤ m := hqm
    calc q * 8388608 = q * 2 ^ (23 - sh) * 2 ^ sh := hsplit
      _ ≤ m / 2 ^ sh * 2 ^ sh := Nat.mul_le_mul_right _ hdiv
      _ ≤ F32.rne m sh * 2 ^ sh := Nat.mul_le_mul_right _ (rne_ge_div m sh)
  have hup := rne_mul_le m sh
  have hhigh : F32.rne m sh * 2 ^ sh < (q + 1) * 8388608 := by
    generalize hB : F32.rne m sh * 2 ^ sh = B at hup ⊢
    omega
  have hdivB : F32.rne m sh * 2 ^ sh / 8388608 = q := by
    generalize hB : F32.rne m sh * 2 ^ sh = B at hlow hhigh ⊢
    omega
  have hneg : ¬ ((0:ℤ) ≤ 0 + (-23) + (sh : ℤ)) := by omega
  rw [if_neg hneg]
  have hto : ((-((0:ℤ) + (-23) + (sh : ℤ))).toNat) = 23 - sh := by omega
  rw [hto]
  have h8 : (8388608 : ℕ) = 2 ^ sh * 2 ^ (23 - sh) := by
    rw [← pow_add]
    have h23 : sh + (23 - sh) = 23 := by omega
    rw [h23]
    norm_num
  rw [← Nat.mul_div_mul_left (F32.rne m sh) (2 ^ (23 - sh))
    (pow_pos (by norm_num : (0:ℕ) < 2) sh), ← h8,
    mul_comm (2 ^ sh) (F32.rne m sh)]
  exact hdivB

/-- The `f32` banker computation agrees with the exact rational floor for
every stake up to and including 393220 (the five stakes at the top are
checked by evaluation). -/
lemma times195_floor (s : ℕ) (hs : s ≤ 393220) : times195 s = floor195 s := by
  rcases lt_or_ge s 393216 with h | h
  · exact times195_below s h
  · interval_cases s <;> decide

lemma f32_scale_natCast (lit : F32) (n : ℕ) :
    f32_scale lit (n : ℤ) = (F32.truncNat (F32.mul (F32.ofNat n) lit) : ℤ) := by
  simp [f32_scale, Int.toNat_natCast]

/-- C3 counterexample: in Classic mode, a banker win at stake 393221 pays
766781, one more than the exact rational floor 766780 of 393221 x 1.95,
because the source computes the product in `f32`. -/
theorem claim_C3_cex :
    g_classic_banker.mode = GameMode.Classic ∧ g_classic_banker.state.winner = 2 ∧
    g_classic_banker.calculate_main_bet_payout "banker" 393221 = 766781 ∧
    (393221 * 39 / 20 : ℕ) = 766780 ∧ (766781 : ℤ) ≠ 766780 := by
  refine ⟨rfl, rfl, by decide, by norm_num, by decide⟩

/-- C3 (amended): in the Classic variant a player win pays 2x the stake, a
tie pays 9x, every mismatched (selection, outcome) pair pays 0, and a
banker win pays the `f32` product `(stake as f32) * 1.95f32` truncated
toward zero, which equals the exact rational floor of `stake * 1.95` for
every stake up to 393220 (so in particular 100 pays 195 and 33 pays 64)
but not for every stake (the first disagreement is at 393221). -/
theorem claim_C3_classic_payouts (g : Game) (hmode : g.mode = GameMode.Classic)
    (amt : ℤ) :
    (g.state.winner = 1 → g.calculate_main_bet_payout "player" amt = amt * 2) ∧
    (g.state.winner = 3 → g.calculate_main_bet_payout "tie" amt = amt * 9) ∧
    (∀ t : String, ¬(t = "player" ∧ g.state.winner = 1) →
      ¬(t = "banker" ∧ g.state.winner = 2) → ¬(t = "tie" ∧ g.state.winner = 3) →
      g.calculate_main_bet_payout t amt = 0) ∧
    (g.state.winner = 2 → ∀ s : ℕ, s ≤ 393220 →
      g.calculate_main_bet_payout "banker" (s : ℤ) = (floor195 s : ℤ)) := by
  unfold Game.calculate_main_bet_payout
  rw [hmode]
  unfold Game.classic_payout
  refine ⟨?_, ?_, ?_, ?_⟩
  · intro hw
    simp [hw]
  · intro hw
    simp [hw]
  · intro t h1 h2 h3
    simp [h1, h2, h3]
  · intro hw s hsle
    simp only [hw]
    rw [if_neg (by simp), if_pos (by simp)]
    rw [f32_scale_natCast]
    exact_mod_cast times195_floor s hsle

/-- C3 witness: the Classic banker payout at stake 100 is the exact floor,
195. -/
theorem claim_C3_witness :
    g_classic_banker.calculate_main_bet_payout "banker" ((100 : ℕ) : ℤ) =
      (floor195 100 : ℤ) ∧ (floor195 100 : ℤ) = 195 :=
  ⟨(claim_C3_classic_payouts g_classic_banker rfl 0).2.2.2 rfl 100 (by norm_num),
    by decide⟩

/-- C5 as evaluated at the failing input: seven stakes of 40 sum to 280,
but `total_bet()` adds them in `u8` and wraps to 24, so the settled
balance moves by payout minus 34 instead of payout minus 290. -/
theorem claim_C5_u8_overflow :
    (40 + 40 + 40 + 40 + 40 + 40 + 40 : ℕ) = 280 ∧
    br_overflow.bonus_bets.total_bet = 24 ∧
    (br_overflow.settle_round g_player_win).2.balance = 1000 - (10 + 24) + 20 ∧
    (1000 - (10 + 24) + 20 : ℤ) ≠ 1000 - (10 + 280) + 20 := by
  refine ⟨by norm_num, by decide, by decide, by decide⟩

end TerminalCasino
